import Mathlib

-- Formal model of the etcd/CA backup scripts of the etcd-ansible repository.
-- The Python sources embedded here are
--   roles/etcd3/backups/cron/files/etcd-backup.py
--   roles/etcd3/backups/cron/files/ca-backup-check.py
-- Bytes are modelled as Nat values (0..255), Python str values as List Char.
-- External effectful collaborators (the aws CLI, openssl, the AES-GCM AEAD of
-- the cryptography library, the filesystem) are modelled as explicit inputs:
-- their observable outcomes are parameters of the embedded control flow.

namespace Backup

/-! Big-endian byte conversions, mirroring int.from_bytes / int.to_bytes. -/

-- int.from_bytes(bs, byteorder="big"): works for any length, empty gives 0.
def fromBytesBE (l : List Nat) : Nat := l.foldl (fun a b => a * 256 + b) 0

-- n.to_bytes(4, byteorder="big"); the source applies it to len(encrypted_key),
-- which for a KMS-wrapped data key is far below 2^32.
def toBytesBE4 (n : Nat) : List Nat :=
  [n / 16777216 % 256, n / 65536 % 256, n / 256 % 256, n % 256]

/-! The KMS envelope format written by encrypt_with_kms (identical code in both
scripts, etcd-backup.py lines 200-205 / ca-backup-check.py lines 217-222):
  4-byte big-endian wrapped-key length, wrapped key, 12-byte nonce, ciphertext.
decrypt_with_kms (etcd-backup.py lines 220-225 / ca-backup-check.py 236-241)
reads it back with bare f.read calls and no length validation. -/

structure Envelope where
  keyLen : Nat
  wrappedKey : List Nat
  nonce : List Nat
  ciphertext : List Nat
deriving DecidableEq, Repr

-- The reads in decrypt_with_kms:
--   encrypted_key_length = int.from_bytes(f.read(4), byteorder="big")
--   encrypted_key = f.read(encrypted_key_length)
--   nonce = f.read(12)
--   ciphertext_data = f.read()
-- Python's f.read(n) silently returns fewer bytes at end of file, which is
-- exactly List.take / List.drop on the remaining bytes.
def readEnvelope (file : List Nat) : Envelope :=
  let keyLen := fromBytesBE (file.take 4)
  let rest := file.drop 4
  { keyLen := keyLen
    wrappedKey := rest.take keyLen
    nonce := (rest.drop keyLen).take 12
    ciphertext := (rest.drop keyLen).drop 12 }

-- The writes in encrypt_with_kms:
--   f.write(len(encrypted_key).to_bytes(4, byteorder="big"))
--   f.write(encrypted_key); f.write(nonce); f.write(ciphertext_data)
def writeEnvelope (wrappedKey nonce ciphertext : List Nat) : List Nat :=
  toBytesBE4 wrappedKey.length ++ wrappedKey ++ nonce ++ ciphertext

-- encrypt_with_kms: the AEAD primitive (AESGCM.encrypt with associated data
-- None) is an external collaborator, passed in as aeadEnc; the data key and
-- its KMS-wrapped form come from kms generate-data-key.
def encrypt_with_kms (aeadEnc : List Nat → List Nat → List Nat → List Nat)
    (dataKey wrappedKey nonce plaintext : List Nat) : List Nat :=
  writeEnvelope wrappedKey nonce (aeadEnc dataKey nonce plaintext)

-- decrypt_with_kms: kmsUnwrap models the aws kms decrypt call on the wrapped
-- key (None = the call fails), aeadDec models AESGCM.decrypt (None = it
-- raises, e.g. InvalidTag).  Note: the envelope parse itself can never fail.
def decrypt_with_kms (kmsUnwrap : List Nat → Option (List Nat))
    (aeadDec : List Nat → List Nat → List Nat → Option (List Nat))
    (file : List Nat) : Option (List Nat) :=
  let env := readEnvelope file
  match kmsUnwrap env.wrappedKey with
  | some key => aeadDec key env.nonce env.ciphertext
  | none => none

/-! Python string primitives used by the scripts, on List Char. -/

-- Characters treated as whitespace by str.strip() / str.split().
def pyIsSpace (c : Char) : Bool :=
  c == ' ' || c == '\t' || c == '\n' || c == '\r' || c == '\x0b' || c == '\x0c'

-- str.strip()
def pyStrip (s : List Char) : List Char :=
  ((s.dropWhile pyIsSpace).reverse.dropWhile pyIsSpace).reverse

-- str.lower() (ASCII view, sufficient for hex digests and CLI arguments)
def pyLower (s : List Char) : List Char := s.map Char.toLower

-- content.split() and taking parts[0] if parts is non-empty:
-- str.split() with no argument drops leading whitespace and cuts the first
-- maximal run of non-whitespace.
def firstToken (s : List Char) : Option (List Char) :=
  let t := s.dropWhile pyIsSpace
  if t.isEmpty then none else some (t.takeWhile (fun c => !pyIsSpace c))

def nlChar : Char := '\n'

-- "\n".join(strings) of ca-backup-check.py line 131.
def pyJoinNl : List (List Char) → List Char
  | [] => []
  | [s] => s
  | s :: rest => s ++ nlChar :: pyJoinNl rest

/-! The CA tree fingerprint (ca-backup-check.py lines 119-146).
A directory tree is modelled as its root path plus the path-sorted list of
(full-path-suffix-after-root, file bytes) pairs produced by
sorted(directory.rglob(star)) restricted to regular files; hashlib.sha256 is
an external primitive, passed in as hfile (file digest, calculate_sha256) and
hstr (digest of an in-memory string). -/

-- f"{file_path}:{checksum}" of line 127: file_path is the ABSOLUTE path
-- root/rel, rendered as root ++ "/" ++ rel.
def fileLine (hfile : List Nat → List Char) (root : List Char)
    (e : List Char × List Nat) : List Char :=
  root ++ '/' :: (e.1 ++ ':' :: hfile e.2)

-- calculate_directory_checksum: per-file "path:digest" lines joined by "\n",
-- then digested again.  Unreadable files are skipped by the source; the
-- entries list holds exactly the files that were successfully digested.
def calculate_directory_checksum (hfile : List Nat → List Char)
    (hstr : List Char → List Char) (root : List Char)
    (entries : List (List Char × List Nat)) : List Char :=
  hstr (pyJoinNl (entries.map (fileLine hfile root)))

-- calculate_ca_checksum: f"secrets:{secrets_checksum}\nconfig:{config_checksum}"
-- digested once more.
def calculate_ca_checksum (hfile : List Nat → List Char)
    (hstr : List Char → List Char) (sRoot cRoot : List Char)
    (se ce : List (List Char × List Nat)) : List Char :=
  hstr ("secrets:".toList ++
    (calculate_directory_checksum hfile hstr sRoot se ++
      nlChar :: ("config:".toList ++ calculate_directory_checksum hfile hstr cRoot ce)))

/-! The restore-path checksum resolution of ca-backup-check.py decrypt_file
(lines 584-735).  File reads are modelled by their observable outcome. -/

inductive FileRead where
  | absent : FileRead
  | unreadable : FileRead
  | contents (s : List Char) : FileRead
deriving DecidableEq, Repr

inductive ResolveOutcome where
  | fatal : ResolveOutcome
  | resolved (expected : Option (List Char)) (verify : Bool) : ResolveOutcome
deriving DecidableEq, Repr

-- Lines 624-661: determine expected_checksum and the (possibly cleared)
-- verify_checksum flag, or return 1 early (ResolveOutcome.fatal).
def resolve_expected (verify : Bool) (shaValue : Option (List Char))
    (shaFileArg : Option FileRead) (autoSidecar : FileRead) : ResolveOutcome :=
  if verify then
    match shaValue with
    | some v => .resolved (some (pyStrip (pyLower v))) true
    | none =>
      match shaFileArg with
      | some .absent => .fatal
      | some .unreadable => .fatal
      | some (.contents s) =>
        match firstToken (pyStrip s) with
        | some t => .resolved (some (pyLower t)) true
        | none => .resolved none true
      | none =>
        match autoSidecar with
        | .contents s =>
          match firstToken (pyStrip s) with
          | some t => .resolved (some (pyLower t)) true
          | none => .resolved none true
        | .unreadable => .resolved none true
        | .absent => .resolved none false
  else .resolved none false

structure DecryptRun where
  verifyFlag : Bool
  shaValue : Option (List Char)
  shaFileArg : Option FileRead
  autoSidecar : FileRead
  method : String
  hasCrypto : Bool
  decryptOk : Bool
  outputNonEmpty : Bool
  actualChecksum : List Char
deriving DecidableEq, Repr

-- decrypt_file of ca-backup-check.py, after auto-detection of the encryption
-- method; returns the function's exit code.  decryptOk models the decrypt /
-- copy stage not raising; actualChecksum is calculate_sha256(output_path).
def decrypt_file_ca (r : DecryptRun) : Nat :=
  match resolve_expected r.verifyFlag r.shaValue r.shaFileArg r.autoSidecar with
  | .fatal => 1
  | .resolved expected verify2 =>
    if r.method == "aws-kms" && !r.hasCrypto then 1
    else if !(r.method == "aws-kms" || r.method == "symmetric" || r.method == "none") then 1
    else if !r.decryptOk then 1
    else if !r.outputNonEmpty then 1
    else
      match expected with
      | some expectedCs =>
        if verify2 then (if r.actualChecksum == expectedCs then 0 else 1) else 0
      | none => 0

/-! The backup orchestrator state machine.  Each external call of the scripts
is modelled by its observable outcome, carried in a stage-outcome record; the
embedded functions reproduce the scripts' control flow: which calls happen (as
an event trace), which local artifacts survive, and the exit code. -/

inductive Ev where
  | snapshot : Ev
  | archive : Ev
  | encrypt : Ev
  | validate : Ev
  | upload : Ev
  | uploadSha : Ev
  | headCheck : Ev
  | downloadVerify : Ev
  | updateLatest : Ev
  | tagObject : Ev
  | localCopy : Ev
  | writeState : Ev
  | ping (status : String) : Ev
deriving DecidableEq, Repr

-- Outcomes of the fallible external calls of etcd-backup.py create_snapshot.
-- validateResult: none = the test decrypt inside validate_encryption raised,
-- some b = it returned checksum-comparison result b.
-- downloadChecksumMatch: none = the verification download itself raised,
-- some b = verify_s3_checksum returned b.
-- Non-fatal stages (checksum-sidecar upload, latest pointer, tagging, local
-- copy) have their exceptions swallowed by the source, so their outcomes do
-- not appear: only the corresponding events do.
structure StageOutcomes where
  mkdirOk : Bool
  dataDirFound : Bool
  snapFileExists : Bool
  acquireOk : Bool
  integrityOk : Bool
  encryptCompletes : Bool
  encOutNonEmpty : Bool
  validateResult : Option Bool
  uploadOk : Bool
  s3HeadExists : Bool
  downloadChecksumMatch : Option Bool
deriving DecidableEq, Repr

-- ok = no exception propagated out of the pipeline function;
-- produced = it returned a non-None result (so main runs the success tail);
-- rawExists / encExists = whether the raw artifact and the separate encrypted
-- artifact are still on local disk when the function returns or raises.
structure PipeResult where
  ok : Bool
  produced : Bool
  events : List Ev
  rawExists : Bool
  encExists : Bool
deriving DecidableEq, Repr

-- etcd-backup.py lines 573-712: upload, checksum sidecar, existence re-check,
-- download-and-compare, then the non-fatal latest pointer / tagging / local
-- copy, and deletion of the encrypted temporary.  sep = the encrypted file is
-- distinct from the raw snapshot (encryption method not "none").
def etcdUploadPhase (st : StageOutcomes) (pre : List Ev) (sep : Bool) : PipeResult :=
  if !st.uploadOk then ⟨false, false, pre ++ [.upload], false, false⟩
  else if !st.s3HeadExists then
    ⟨false, false, pre ++ [.upload, .uploadSha, .headCheck], false, false⟩
  else
    match st.downloadChecksumMatch with
    | none =>
      ⟨false, false, pre ++ [.upload, .uploadSha, .headCheck, .downloadVerify], true, sep⟩
    | some false =>
      ⟨false, false, pre ++ [.upload, .uploadSha, .headCheck, .downloadVerify], false, false⟩
    | some true =>
      ⟨true, true,
        pre ++ [.upload, .uploadSha, .headCheck, .downloadVerify,
          .updateLatest, .tagObject, .localCopy],
        true, false⟩

-- create_snapshot of etcd-backup.py (lines 386-712).  The aws-kms and
-- symmetric branches (lines 526-543 and 545-562) are control-flow identical
-- and are collapsed into one branch guarded by the method test.
def create_snapshot (online : Bool) (method : String) (dryRun : Bool)
    (st : StageOutcomes) : PipeResult :=
  if dryRun then ⟨true, false, [], false, false⟩
  else if !st.mkdirOk then ⟨false, false, [], false, false⟩
  else if online && !st.acquireOk then ⟨false, false, [.snapshot], false, false⟩
  else if !online && !st.dataDirFound then ⟨false, false, [], false, false⟩
  else if !online && !st.snapFileExists then ⟨false, false, [], false, false⟩
  else if !online && !st.acquireOk then ⟨false, false, [.snapshot], false, false⟩
  else if !st.integrityOk then ⟨false, false, [.snapshot], false, false⟩
  else if method == "aws-kms" || method == "symmetric" then
    if !st.encryptCompletes then ⟨false, false, [.snapshot, .encrypt], true, false⟩
    else if !st.encOutNonEmpty then ⟨false, false, [.snapshot, .encrypt], false, false⟩
    else
      match st.validateResult with
      | none => ⟨false, false, [.snapshot, .encrypt, .validate], true, true⟩
      | some false => ⟨false, false, [.snapshot, .encrypt, .validate], false, false⟩
      | some true => etcdUploadPhase st [.snapshot, .encrypt, .validate] true
  else etcdUploadPhase st [.snapshot] false

-- Outcomes of the fallible external calls of ca-backup-check.py backup_ca.
structure CaStages where
  archiveOk : Bool
  encryptCompletes : Bool
  encOutNonEmpty : Bool
  validateResult : Option Bool
  uploadOk : Bool
  s3HeadExists : Bool
  downloadChecksumMatch : Option Bool
deriving DecidableEq, Repr

-- ca-backup-check.py lines 452-581: like the etcd tail, but with no local
-- copy, and the final cleanup (lines 564-569) deletes the raw archive too.
def caUploadPhase (st : CaStages) (pre : List Ev) (sep : Bool) : PipeResult :=
  if !st.uploadOk then ⟨false, false, pre ++ [.upload], false, false⟩
  else if !st.s3HeadExists then
    ⟨false, false, pre ++ [.upload, .uploadSha, .headCheck], false, false⟩
  else
    match st.downloadChecksumMatch with
    | none =>
      ⟨false, false, pre ++ [.upload, .uploadSha, .headCheck, .downloadVerify], true, sep⟩
    | some false =>
      ⟨false, false, pre ++ [.upload, .uploadSha, .headCheck, .downloadVerify], false, false⟩
    | some true =>
      ⟨true, true,
        pre ++ [.upload, .uploadSha, .headCheck, .downloadVerify, .updateLatest, .tagObject],
        false, false⟩

-- backup_ca of ca-backup-check.py (lines 379-581); encryption branches
-- collapsed as in create_snapshot.
def backup_ca (method : String) (dryRun : Bool) (st : CaStages) : PipeResult :=
  if dryRun then ⟨true, false, [], false, false⟩
  else if !st.archiveOk then ⟨false, false, [.archive], false, false⟩
  else if method == "aws-kms" || method == "symmetric" then
    if !st.encryptCompletes then ⟨false, false, [.archive, .encrypt], true, false⟩
    else if !st.encOutNonEmpty then ⟨false, false, [.archive, .encrypt], false, false⟩
    else
      match st.validateResult with
      | none => ⟨false, false, [.archive, .encrypt, .validate], true, true⟩
      | some false => ⟨false, false, [.archive, .encrypt, .validate], false, false⟩
      | some true => caUploadPhase st [.archive, .encrypt, .validate] true
  else caUploadPhase st [.archive] false

/-! Retention collectors. -/

-- A local backup artifact as the sweep sees it: old = its mtime is beyond the
-- retention cutoff; delOk = unlink would succeed on it.
structure CleanFile where
  name : String
  old : Bool
  delOk : Bool
deriving DecidableEq, Repr

-- cleanup_old_backups of etcd-backup.py (lines 715-736): the unlink inside
-- the rglob loop is NOT guarded, so a failing unlink raises out of the
-- function, abandoning the rest of the sweep.  Result: (names deleted, an
-- exception escaped).
def cleanup_old_backups_etcd : List CleanFile → List String × Bool
  | [] => ([], false)
  | f :: rest =>
    if f.old then
      if f.delOk then
        let r := cleanup_old_backups_etcd rest
        (f.name :: r.1, r.2)
      else ([], true)
    else cleanup_old_backups_etcd rest

-- The per-file guarded sweep of ca-backup-check.py cleanup_old_backups
-- (lines 752-769): every unlink failure is caught, counted and skipped.
-- Result: (names deleted, error count).
def caSweep : List CleanFile → List String × Nat
  | [] => ([], 0)
  | f :: rest =>
    let r := caSweep rest
    if f.old then
      if f.delOk then (f.name :: r.1, r.2) else (r.1, r.2 + 1)
    else r

-- cleanup_old_backups of ca-backup-check.py (lines 738-788): gated by the
-- cleanup_enabled config and wrapped in an outer try that never re-raises.
def cleanup_old_backups_ca (enabled : Bool) (files : List CleanFile) :
    List String × Nat :=
  if !enabled then ([], 0) else caSweep files

/-! The duplicate suppressor (etcd-backup.py check_recent_backup, lines
351-383).  The aws list command runs with check=False, so a non-zero exit
still yields a CompletedProcess and the except CalledProcessError handler is
unreachable; but a TimeoutExpired becomes a BackupError raised by run_command,
which check_recent_backup does not catch. -/

inductive CmdOutcome where
  | timeout : CmdOutcome
  | completed (exitCode : Nat) (stdout : List Char) : CmdOutcome
deriving DecidableEq, Repr

inductive ListingResult where
  | raised : ListingResult
  | value (b : Bool) : ListingResult
deriving DecidableEq, Repr

def check_recent_backup : CmdOutcome → ListingResult
  | .timeout => .raised
  | .completed _ out => .value (!(pyStrip out).isEmpty)

/-! The two main() functions. -/

structure MainResult where
  exitCode : Nat
  events : List Ev
  rawExists : Bool
  encExists : Bool
  sweepDeleted : List String
deriving DecidableEq, Repr

structure EtcdRun where
  method : String
  hasCrypto : Bool
  onlineOnly : Bool
  dryRun : Bool
  distributed : Bool
  independent : Bool
  clusterHealthy : Bool
  listing : CmdOutcome
  stages : StageOutcomes
  localFiles : List CleanFile
deriving DecidableEq, Repr

-- main of etcd-backup.py (backup mode, lines 896-1052).  Ev.ping records an
-- invocation of send_healthcheck_ping with the given status (the function
-- itself no-ops when no healthcheck_url is configured and never raises).
-- Exceptions escaping check_recent_backup, create_snapshot or
-- cleanup_old_backups are caught by the except blocks at lines 1023-1052,
-- which ping "failure" (unless dry-run) and return 1.
def etcd_main (r : EtcdRun) : MainResult :=
  if r.method == "aws-kms" && !r.hasCrypto then ⟨1, [], false, false, []⟩
  else if !r.clusterHealthy && r.onlineOnly then
    ⟨1, [.ping ("cluster-unhealthy")], false, false, []⟩
  else
    let suppress :=
      if r.distributed && !r.independent then check_recent_backup r.listing
      else .value false
    match suppress with
    | .raised =>
      ⟨1, if r.dryRun then [] else [.ping ("failure")], false, false, []⟩
    | .value true => ⟨0, [.ping ("backup-exists")], false, false, []⟩
    | .value false =>
      let p := create_snapshot r.clusterHealthy r.method r.dryRun r.stages
      if !p.ok then
        ⟨1, p.events ++ (if r.dryRun then [] else [.ping ("failure")]),
          p.rawExists, p.encExists, []⟩
      else if p.produced && !r.dryRun then
        let c := cleanup_old_backups_etcd r.localFiles
        if c.2 then
          ⟨1, p.events ++ [.ping ("failure")], p.rawExists, p.encExists, c.1⟩
        else
          ⟨0, p.events ++ [.ping ("success")], p.rawExists, p.encExists, c.1⟩
      else ⟨0, p.events, p.rawExists, p.encExists, []⟩

structure CaRun where
  method : String
  hasCrypto : Bool
  force : Bool
  dryRun : Bool
  stateFileExists : Bool
  lastChecksum : List Char
  currentChecksum : List Char
  stages : CaStages
  cleanupEnabled : Bool
  localFiles : List CleanFile
deriving DecidableEq, Repr

-- main of ca-backup-check.py (backup mode, lines 870-1010).  currentChecksum
-- is the calculate_ca_checksum result for this run, lastChecksum the stripped
-- state-file content.  The except blocks of this main return 1 without
-- pinging.  On success: state file written, guarded cleanup, ping "success".
def ca_main (r : CaRun) : MainResult :=
  if r.method == "aws-kms" && !r.hasCrypto then ⟨1, [], false, false, []⟩
  else if !r.force && r.stateFileExists && r.currentChecksum == r.lastChecksum then
    ⟨0, [.ping ("no-changes")], false, false, []⟩
  else
    let p := backup_ca r.method r.dryRun r.stages
    if !p.ok then ⟨1, p.events, p.rawExists, p.encExists, []⟩
    else if p.produced && !r.dryRun then
      let c := cleanup_old_backups_ca r.cleanupEnabled r.localFiles
      ⟨0, p.events ++ [.writeState, .ping ("success")], p.rawExists, p.encExists, c.1⟩
    else ⟨0, p.events, p.rawExists, p.encExists, []⟩

/-! Concrete instances used to evaluate the statements on closed inputs. -/

-- A toy AEAD scheme satisfying the correctness and authenticity laws at one
-- concrete key/nonce/plaintext, standing in for AES-256-GCM.
def toyNonce : List Nat := List.replicate 12 0

def toyEnc (_key n p : List Nat) : List Nat := n ++ p

def toyDec (key n c : List Nat) : Option (List Nat) :=
  if key = [1] ∧ n = toyNonce ∧ c = toyNonce ++ [5] then some [5] else none

def toyUnwrap (e : List Nat) : Option (List Nat) :=
  if e = [9] then some [1] else none

-- Injective digest stand-ins whose outputs never contain a newline.
-- escDigest encodes each character as a two-character block ('N','1' for the
-- newline itself, the character followed by '0' otherwise); byteDigest
-- encodes each byte value as a self-delimiting unary block.
def escPair (c : Char) : List Char :=
  if c = nlChar then ['N', '1'] else [c, '0']

def escDigest (l : List Char) : List Char := l.flatMap escPair

def byteBlock (n : Nat) : List Char := 'x' :: List.replicate n 'a'

def byteDigest (l : List Nat) : List Char := l.flatMap byteBlock

-- A digest stand-in that ignores the file bytes, for closed evaluations.
def constDigest : List Nat → List Char := fun _ => []

-- Stage-outcome records where every external call succeeds.
def stagesAllOk : StageOutcomes :=
  ⟨true, true, true, true, true, true, true, some true, true, true, some true⟩

def caStagesAllOk : CaStages :=
  ⟨true, true, true, some true, true, true, some true⟩

-- Everything succeeds until the post-encryption validation comparison fails.
def stagesValidateFail : StageOutcomes :=
  ⟨true, true, true, true, true, true, true, some false, true, true, some true⟩

def caStagesValidateFail : CaStages :=
  ⟨true, true, true, some false, true, true, some true⟩

-- Everything succeeds until the post-upload verification download disagrees.
def stagesDownloadMismatch : StageOutcomes :=
  ⟨true, true, true, true, true, true, true, some true, true, true, some false⟩

def caStagesDownloadMismatch : CaStages :=
  ⟨true, true, true, some true, true, true, some false⟩

-- CA run whose persisted fingerprint equals the current one, no force flag.
def caSkipRun : CaRun :=
  ⟨"none", false, false, false, true, "abc123".toList, "abc123".toList,
    caStagesAllOk, true, []⟩

-- Runs requesting aws-kms while the cryptography capability is unavailable.
def kmsNoCryptoEtcd : EtcdRun :=
  ⟨"aws-kms", false, false, false, true, false, true, .completed 0 [],
    stagesAllOk, []⟩

def kmsNoCryptoCa : CaRun :=
  ⟨"aws-kms", false, false, false, false, [], [], caStagesAllOk, true, []⟩

-- Runs whose post-upload verification download mismatches.
def etcdMismatchRun : EtcdRun :=
  ⟨"aws-kms", true, false, false, false, false, true, .completed 0 [],
    stagesDownloadMismatch, []⟩

def caMismatchRun : CaRun :=
  ⟨"aws-kms", true, true, false, false, [], [], caStagesDownloadMismatch, true, []⟩

-- Retention runs: a successful backup followed by a sweep over two old
-- files, where in the bad variant the first deletion fails.
def retGoodRun : EtcdRun :=
  ⟨"none", true, false, false, false, false, true, .completed 0 [], stagesAllOk,
    [⟨"a", true, true⟩, ⟨"b", true, true⟩]⟩

def retBadRun : EtcdRun :=
  ⟨"none", true, false, false, false, false, true, .completed 0 [], stagesAllOk,
    [⟨"a", true, false⟩, ⟨"b", true, true⟩]⟩

def caRetRun : CaRun :=
  ⟨"none", true, true, false, false, [], [], caStagesAllOk, true,
    [⟨"a", true, false⟩, ⟨"b", true, true⟩]⟩

-- Duplicate-suppression runs: the listing times out / completes with a
-- non-zero exit code and empty stdout.
def listRunTimeout : EtcdRun :=
  ⟨"none", true, false, false, true, false, true, .timeout, stagesAllOk, []⟩

def listRunOkEmpty : EtcdRun :=
  ⟨"none", true, false, false, true, false, true, .completed 1 [], stagesAllOk, []⟩

-- Restore runs: an explicitly named sidecar file that does not exist; no
-- checksum source at all; a resolved checksum that mismatches the output.
def missingSidecarRun : DecryptRun :=
  ⟨true, none, some .absent, .absent, "none", true, true, true, []⟩

def noSourceRun : DecryptRun :=
  ⟨true, none, none, .absent, "none", true, true, true, "q".toList⟩

def mismatchDecryptRun : DecryptRun :=
  ⟨true, some ("AB".toList), none, .absent, "none", true, true, true, "cd".toList⟩

end Backup

namespace Backup

/-! Helper facts about the envelope encoding. -/

theorem fromBytesBE_toBytesBE4 (n : Nat) (h : n < 4294967296) :
    fromBytesBE (toBytesBE4 n) = n := by
  simp only [fromBytesBE, toBytesBE4, List.foldl]
  omega

theorem readEnvelope_writeEnvelope (ek nonce ct : List Nat)
    (hek : ek.length < 4294967296) (hn : nonce.length = 12) :
    readEnvelope (writeEnvelope ek nonce ct) = ⟨ek.length, ek, nonce, ct⟩ := by
  have h4 : (toBytesBE4 ek.length).length = 4 := rfl
  simp only [readEnvelope, writeEnvelope, List.append_assoc]
  rw [List.take_left' h4, List.drop_left' h4, fromBytesBE_toBytesBE4 _ hek,
    List.take_left' rfl, List.drop_left' rfl, List.take_left' hn,
    List.drop_left' hn]

theorem list_set_ne (l : List Nat) (j b : Nat) (hj : j < l.length)
    (hb : b ≠ l.getD j 0) : l.set j b ≠ l := by
  induction l generalizing j with
  | nil => simp at hj
  | cons x xs ih =>
    cases j with
    | zero =>
      simp only [List.getD_cons_zero] at hb
      intro h
      simp only [List.set] at h
      injection h with h1 _
      exact hb h1
    | succ n =>
      simp only [List.getD_cons_succ] at hb
      intro h
      simp only [List.set] at h
      injection h with _ h2
      exact ih n (by simpa using hj) hb h2

/-- Claim C1 (amended): when the first 4 bytes of the envelope claim a
wrapped-key length larger than the number of remaining bytes, the envelope
parse of decrypt_with_kms reads no byte beyond the file — the wrapped key is
silently truncated to the remaining bytes and the nonce and ciphertext decode
as empty — and no corrupt-envelope error is raised by the parse. -/
theorem readEnvelope_truncated_silent (file : List Nat)
    (h : file.length - 4 < fromBytesBE (file.take 4)) :
    (readEnvelope file).wrappedKey = file.drop 4
    ∧ (readEnvelope file).nonce = []
    ∧ (readEnvelope file).ciphertext = []
    ∧ (readEnvelope file).wrappedKey.length < (readEnvelope file).keyLen := by
  have hlen : (file.drop 4).length ≤ fromBytesBE (file.take 4) := by
    simp only [List.length_drop]
    omega
  have hdrop : (file.drop 4).drop (fromBytesBE (file.take 4)) = [] :=
    List.drop_eq_nil_of_le hlen
  refine ⟨?_, ?_, ?_, ?_⟩
  · simp [readEnvelope, List.take_of_length_le hlen]
  · simp [readEnvelope, hdrop]
  · simp [readEnvelope, hdrop]
  · simp only [readEnvelope, List.take_of_length_le hlen, List.length_drop]
    omega

/-- Witness for C1: the file 00 00 00 05 01 02 claims a 5-byte wrapped key
with only 2 bytes remaining. -/
theorem readEnvelope_truncated_silent_witness :
    [0, 0, 0, 5, 1, 2].length - 4 < fromBytesBE ([0, 0, 0, 5, 1, 2].take 4)
    ∧ ((readEnvelope [0, 0, 0, 5, 1, 2]).wrappedKey = [1, 2]
      ∧ (readEnvelope [0, 0, 0, 5, 1, 2]).nonce = []
      ∧ (readEnvelope [0, 0, 0, 5, 1, 2]).ciphertext = []
      ∧ (readEnvelope [0, 0, 0, 5, 1, 2]).wrappedKey.length
          < (readEnvelope [0, 0, 0, 5, 1, 2]).keyLen) := by
  refine ⟨by decide, ?_⟩
  simpa using readEnvelope_truncated_silent [0, 0, 0, 5, 1, 2] (by decide)

/-- Counterexample to C1 as stated: the 4-byte file claiming a 100-byte
wrapped key is parsed without any error into an empty wrapped key, empty
nonce and empty ciphertext, and decryption as a whole need not fail at all —
no corrupt-envelope error exists in the code. -/
theorem kms_corrupt_length_counterexample :
    readEnvelope [0, 0, 0, 100] = ⟨100, [], [], []⟩
    ∧ decrypt_with_kms (fun _ => some []) (fun _ _ _ => some [7]) [0, 0, 0, 100]
        = some [7] := by
  exact ⟨rfl, rfl⟩

/-- Claim C7: for every plaintext and valid data key, and under the standard
correctness and authenticity laws of the external AEAD primitive and the KMS
unwrap call, decrypting the envelope written by encrypt_with_kms returns
exactly the original plaintext, and flipping any single byte of the nonce
region or of the ciphertext region of the envelope makes decryption fail. -/
theorem kms_envelope_roundtrip_tamper
    (enc : List Nat → List Nat → List Nat → List Nat)
    (dec : List Nat → List Nat → List Nat → Option (List Nat))
    (kmsUnwrap : List Nat → Option (List Nat))
    (key ek nonce pt : List Nat)
    (hek : ek.length < 4294967296) (hn : nonce.length = 12)
    (hwrap : kmsUnwrap ek = some key)
    (hdec : dec key nonce (enc key nonce pt) = some pt)
    (hauthN : ∀ n2, n2.length = 12 → n2 ≠ nonce → dec key n2 (enc key nonce pt) = none)
    (hauthC : ∀ c2, c2 ≠ enc key nonce pt → dec key nonce c2 = none) :
    decrypt_with_kms kmsUnwrap dec (encrypt_with_kms enc key ek nonce pt) = some pt
    ∧ (∀ j b, j < 12 → b ≠ nonce.getD j 0 →
        decrypt_with_kms kmsUnwrap dec
          (writeEnvelope ek (nonce.set j b) (enc key nonce pt)) = none)
    ∧ (∀ j b, j < (enc key nonce pt).length → b ≠ (enc key nonce pt).getD j 0 →
        decrypt_with_kms kmsUnwrap dec
          (writeEnvelope ek nonce ((enc key nonce pt).set j b)) = none) := by
  refine ⟨?_, ?_, ?_⟩
  · have h1 := readEnvelope_writeEnvelope ek nonce (enc key nonce pt) hek hn
    simp only [decrypt_with_kms, encrypt_with_kms, h1, hwrap]
    exact hdec
  · intro j b hj hb
    have hn2 : (nonce.set j b).length = 12 := by simp [hn]
    have h1 := readEnvelope_writeEnvelope ek (nonce.set j b) (enc key nonce pt) hek hn2
    simp only [decrypt_with_kms, h1, hwrap]
    exact hauthN _ hn2 (list_set_ne nonce j b (by omega) hb)
  · intro j b hj hb
    have h1 := readEnvelope_writeEnvelope ek nonce ((enc key nonce pt).set j b) hek hn
    simp only [decrypt_with_kms, h1, hwrap]
    exact hauthC _ (list_set_ne _ j b hj hb)

/-- Witness for C7: the toy AEAD realises the laws at a concrete key, nonce
and one-byte plaintext; round trip succeeds and a nonce-byte flip fails. -/
theorem kms_envelope_roundtrip_tamper_witness :
    decrypt_with_kms toyUnwrap toyDec (encrypt_with_kms toyEnc [1] [9] toyNonce [5])
      = some [5]
    ∧ decrypt_with_kms toyUnwrap toyDec
        (writeEnvelope [9] (toyNonce.set 0 1) (toyEnc [1] toyNonce [5])) = none := by
  have h := kms_envelope_roundtrip_tamper toyEnc toyDec toyUnwrap [1] [9] toyNonce [5]
    (by decide) (by decide) (by decide) (by decide)
    (fun n2 _ hne => by
      simp only [toyEnc] at *
      simp [toyDec, hne])
    (fun c2 hne => by
      simp only [toyEnc] at hne
      simp [toyDec, hne])
  exact ⟨h.1, h.2.1 0 1 (by decide) (by decide)⟩

theorem method_gate (m : String) (c : Bool) (h : m = "aws-kms" → c = true) :
    (m == "aws-kms" && !c) = false := by
  by_cases hm : m = "aws-kms"
  · simp [hm, h hm]
  · simp [hm]

/-- Claim C2: a CA run with an existing state file whose stored checksum
equals the freshly computed tree checksum and no force flag performs no
archive-creation, encryption or upload call, invokes the notifier with status
no-changes, and exits 0. -/
theorem ca_unchanged_skips_pipeline (r : CaRun)
    (hc : r.method = "aws-kms" → r.hasCrypto = true)
    (hs : r.stateFileExists = true) (hf : r.force = false)
    (heq : r.currentChecksum = r.lastChecksum) :
    ca_main r = ⟨0, [.ping ("no-changes")], false, false, []⟩
    ∧ Ev.archive ∉ (ca_main r).events
    ∧ Ev.encrypt ∉ (ca_main r).events
    ∧ Ev.upload ∉ (ca_main r).events := by
  have hmain : ca_main r = ⟨0, [.ping ("no-changes")], false, false, []⟩ := by
    simp [ca_main, method_gate r.method r.hasCrypto hc, hs, hf, heq]
  refine ⟨hmain, ?_, ?_, ?_⟩ <;> rw [hmain] <;> decide

/-- Witness for C2: a concrete run with matching checksums abc123. -/
theorem ca_unchanged_skips_pipeline_witness :
    ca_main caSkipRun = ⟨0, [.ping ("no-changes")], false, false, []⟩ :=
  (ca_unchanged_skips_pipeline caSkipRun (by decide) rfl rfl rfl).1

/-- Claim C9: requesting aws-kms encryption while the cryptography capability
is unavailable terminates either script with exit code 1 before any pipeline
stage runs (the event trace is empty: nothing is encrypted under any other
method, nothing uploaded, no notification sent). -/
theorem kms_requires_cryptography (re : EtcdRun) (rc : CaRun)
    (h1 : re.method = "aws-kms") (h2 : re.hasCrypto = false)
    (h3 : rc.method = "aws-kms") (h4 : rc.hasCrypto = false) :
    etcd_main re = ⟨1, [], false, false, []⟩
    ∧ ca_main rc = ⟨1, [], false, false, []⟩ := by
  constructor
  · simp [etcd_main, h1, h2]
  · simp [ca_main, h3, h4]

/-- Witness for C9: concrete aws-kms runs without the cryptography library. -/
theorem kms_requires_cryptography_witness :
    etcd_main kmsNoCryptoEtcd = ⟨1, [], false, false, []⟩
    ∧ ca_main kmsNoCryptoCa = ⟨1, [], false, false, []⟩ :=
  kms_requires_cryptography kmsNoCryptoEtcd kmsNoCryptoCa rfl rfl rfl rfl

/-- Claim C3: in both scripts, when the post-encryption validation checksum
comparison fails, the pipeline raises before any upload call and both the raw
local file and the encrypted local file are deleted first. -/
theorem validation_failure_blocks_upload (online : Bool) (method : String)
    (st : StageOutcomes) (cst : CaStages)
    (hm : method = "aws-kms" ∨ method = "symmetric")
    (h1 : st.mkdirOk = true) (h2 : st.acquireOk = true)
    (h3 : st.dataDirFound = true) (h4 : st.snapFileExists = true)
    (h5 : st.integrityOk = true) (h6 : st.encryptCompletes = true)
    (h7 : st.encOutNonEmpty = true) (h8 : st.validateResult = some false)
    (c1 : cst.archiveOk = true) (c2 : cst.encryptCompletes = true)
    (c3 : cst.encOutNonEmpty = true) (c4 : cst.validateResult = some false) :
    create_snapshot online method false st
      = ⟨false, false, [.snapshot, .encrypt, .validate], false, false⟩
    ∧ backup_ca method false cst
      = ⟨false, false, [.archive, .encrypt, .validate], false, false⟩
    ∧ Ev.upload ∉ (create_snapshot online method false st).events
    ∧ Ev.upload ∉ (backup_ca method false cst).events := by
  have hmeq : (method == "aws-kms" || method == "symmetric") = true := by
    rcases hm with h | h <;> simp [h]
  have hcs : create_snapshot online method false st
      = ⟨false, false, [.snapshot, .encrypt, .validate], false, false⟩ := by
    cases online <;>
      simp [create_snapshot, h1, h2, h3, h4, h5, h6, h7, h8, hmeq]
  have hca : backup_ca method false cst
      = ⟨false, false, [.archive, .encrypt, .validate], false, false⟩ := by
    simp [backup_ca, c1, c2, c3, c4, hmeq]
  refine ⟨hcs, hca, ?_, ?_⟩
  · rw [hcs]; decide
  · rw [hca]; decide

/-- Witness for C3: concrete aws-kms runs reaching a failed validation. -/
theorem validation_failure_blocks_upload_witness :
    create_snapshot true "aws-kms" false stagesValidateFail
      = ⟨false, false, [.snapshot, .encrypt, .validate], false, false⟩
    ∧ backup_ca "aws-kms" false caStagesValidateFail
      = ⟨false, false, [.archive, .encrypt, .validate], false, false⟩ := by
  have h := validation_failure_blocks_upload true "aws-kms" stagesValidateFail
    caStagesValidateFail (Or.inl rfl) rfl rfl rfl rfl rfl rfl rfl rfl rfl rfl rfl rfl
  exact ⟨h.1, h.2.1⟩

theorem etcdUploadPhase_mismatch (st : StageOutcomes) (pre : List Ev) (sep : Bool)
    (hu : st.uploadOk = true) (hh : st.s3HeadExists = true)
    (hd : st.downloadChecksumMatch = some false) :
    etcdUploadPhase st pre sep
      = ⟨false, false, pre ++ [.upload, .uploadSha, .headCheck, .downloadVerify],
          false, false⟩ := by
  simp [etcdUploadPhase, hu, hh, hd]

theorem caUploadPhase_mismatch (st : CaStages) (pre : List Ev) (sep : Bool)
    (hu : st.uploadOk = true) (hh : st.s3HeadExists = true)
    (hd : st.downloadChecksumMatch = some false) :
    caUploadPhase st pre sep
      = ⟨false, false, pre ++ [.upload, .uploadSha, .headCheck, .downloadVerify],
          false, false⟩ := by
  simp [caUploadPhase, hu, hh, hd]

/-- Claim C4: in both scripts, when the post-upload verification download
yields a mismatching checksum, the run exits 1 and both local artifacts are
deleted, even though the upload call itself succeeded (the upload event is in
the trace). -/
theorem upload_verification_mismatch_fatal (re : EtcdRun) (rc : CaRun)
    (e0 : re.method = "aws-kms" → re.hasCrypto = true)
    (e1 : re.clusterHealthy = true) (e2 : re.dryRun = false)
    (e3 : re.distributed = false)
    (e4 : re.stages.mkdirOk = true) (e5 : re.stages.acquireOk = true)
    (e6 : re.stages.integrityOk = true) (e7 : re.stages.encryptCompletes = true)
    (e8 : re.stages.encOutNonEmpty = true)
    (e9 : re.stages.validateResult = some true)
    (e10 : re.stages.uploadOk = true) (e11 : re.stages.s3HeadExists = true)
    (e12 : re.stages.downloadChecksumMatch = some false)
    (f0 : rc.method = "aws-kms" → rc.hasCrypto = true)
    (f1 : rc.force = true) (f2 : rc.dryRun = false)
    (f3 : rc.stages.archiveOk = true) (f4 : rc.stages.encryptCompletes = true)
    (f5 : rc.stages.encOutNonEmpty = true)
    (f6 : rc.stages.validateResult = some true)
    (f7 : rc.stages.uploadOk = true) (f8 : rc.stages.s3HeadExists = true)
    (f9 : rc.stages.downloadChecksumMatch = some false) :
    (etcd_main re).exitCode = 1
    ∧ (etcd_main re).rawExists = false
    ∧ (etcd_main re).encExists = false
    ∧ Ev.upload ∈ (etcd_main re).events
    ∧ (ca_main rc).exitCode = 1
    ∧ (ca_main rc).rawExists = false
    ∧ (ca_main rc).encExists = false
    ∧ Ev.upload ∈ (ca_main rc).events := by
  have hp : ∀ pre sep, etcdUploadPhase re.stages pre sep
      = ⟨false, false, pre ++ [.upload, .uploadSha, .headCheck, .downloadVerify],
          false, false⟩ :=
    fun pre sep => etcdUploadPhase_mismatch re.stages pre sep e10 e11 e12
  have hq : ∀ pre sep, caUploadPhase rc.stages pre sep
      = ⟨false, false, pre ++ [.upload, .uploadSha, .headCheck, .downloadVerify],
          false, false⟩ :=
    fun pre sep => caUploadPhase_mismatch rc.stages pre sep f7 f8 f9
  have hcs : ∃ pre, create_snapshot re.clusterHealthy re.method re.dryRun re.stages
      = ⟨false, false, pre ++ [.upload, .uploadSha, .headCheck, .downloadVerify],
          false, false⟩ := by
    by_cases hm : (re.method == "aws-kms" || re.method == "symmetric") = true
    · refine ⟨[.snapshot, .encrypt, .validate], ?_⟩
      simp [create_snapshot, e1, e2, e4, e5, e6, e7, e8, e9, hm, hp]
    · refine ⟨[.snapshot], ?_⟩
      simp only [Bool.not_eq_true] at hm
      simp [create_snapshot, e1, e2, e4, e5, e6, hm, hp]
  have hba : ∃ pre, backup_ca rc.method rc.dryRun rc.stages
      = ⟨false, false, pre ++ [.upload, .uploadSha, .headCheck, .downloadVerify],
          false, false⟩ := by
    by_cases hm : (rc.method == "aws-kms" || rc.method == "symmetric") = true
    · refine ⟨[.archive, .encrypt, .validate], ?_⟩
      simp [backup_ca, f2, f3, f4, f5, f6, hm, hq]
    · refine ⟨[.archive], ?_⟩
      simp only [Bool.not_eq_true] at hm
      simp [backup_ca, f2, f3, hm, hq]
  obtain ⟨pre1, hcs⟩ := hcs
  obtain ⟨pre2, hba⟩ := hba
  rw [e1, e2] at hcs
  rw [f2] at hba
  have hem : etcd_main re
      = ⟨1, pre1 ++ [.upload, .uploadSha, .headCheck, .downloadVerify,
          .ping ("failure")], false, false, []⟩ := by
    simp [etcd_main, method_gate re.method re.hasCrypto e0, e1, e2, e3, hcs]
  have hcm : ca_main rc
      = ⟨1, pre2 ++ [.upload, .uploadSha, .headCheck, .downloadVerify],
          false, false, []⟩ := by
    simp [ca_main, method_gate rc.method rc.hasCrypto f0, f1, f2, hba]
  rw [hem, hcm]
  refine ⟨rfl, rfl, rfl, ?_, rfl, rfl, rfl, ?_⟩ <;> simp

/-- Witness for C4: concrete aws-kms runs whose verification download
mismatches after a successful upload. -/
theorem upload_verification_mismatch_fatal_witness :
    (etcd_main etcdMismatchRun).exitCode = 1
    ∧ (etcd_main etcdMismatchRun).rawExists = false
    ∧ Ev.upload ∈ (etcd_main etcdMismatchRun).events
    ∧ (ca_main caMismatchRun).exitCode = 1
    ∧ (ca_main caMismatchRun).rawExists = false
    ∧ Ev.upload ∈ (ca_main caMismatchRun).events := by
  have h := upload_verification_mismatch_fatal etcdMismatchRun caMismatchRun
    (fun _ => rfl) rfl rfl rfl rfl rfl rfl rfl rfl rfl rfl rfl rfl
    (fun _ => rfl) rfl rfl rfl rfl rfl rfl rfl rfl rfl
  exact ⟨h.1, h.2.1, h.2.2.2.1, h.2.2.2.2.1, h.2.2.2.2.2.1, h.2.2.2.2.2.2.2⟩

theorem caSweep_deletes_filter (files : List CleanFile) :
    (caSweep files).1 = (files.filter (fun f => f.old && f.delOk)).map CleanFile.name := by
  induction files with
  | nil => rfl
  | cons f rest ih =>
    by_cases ho : f.old = true
    · by_cases hd : f.delOk = true
      · simp [caSweep, List.filter, ho, hd, ih]
      · simp only [Bool.not_eq_true] at hd
        simp [caSweep, List.filter, ho, hd, ih]
    · simp only [Bool.not_eq_true] at ho
      simp [caSweep, List.filter, ho, ih]

theorem etcd_sweep_raises (files : List CleanFile) :
    (cleanup_old_backups_etcd files).2 = files.any (fun f => f.old && !f.delOk) := by
  induction files with
  | nil => rfl
  | cons f rest ih =>
    by_cases ho : f.old = true
    · by_cases hd : f.delOk = true
      · simp [cleanup_old_backups_etcd, ho, hd, ih]
      · simp only [Bool.not_eq_true] at hd
        simp [cleanup_old_backups_etcd, ho, hd]
    · simp only [Bool.not_eq_true] at ho
      simp [cleanup_old_backups_etcd, ho, ih]

/-- Claim C5 (amended): in the CA script every retention deletion is
independently guarded — the sweep deletes exactly the deletable old files no
matter which other deletions fail, and the run still exits 0 — but in the
etcd script the sweep has no per-file guard: any old file whose deletion
fails makes the collector raise, abandoning the rest of the sweep, and flips
the exit code of the otherwise-successful run from 0 to 1. -/
theorem retention_sweep_isolation (rc : CaRun) (re : EtcdRun)
    (f0 : rc.method = "aws-kms" → rc.hasCrypto = true)
    (f1 : rc.force = true) (f2 : rc.dryRun = false)
    (f3 : rc.stages.archiveOk = true) (f4 : rc.stages.encryptCompletes = true)
    (f5 : rc.stages.encOutNonEmpty = true)
    (f6 : rc.stages.validateResult = some true)
    (f7 : rc.stages.uploadOk = true) (f8 : rc.stages.s3HeadExists = true)
    (f9 : rc.stages.downloadChecksumMatch = some true)
    (e0 : re.method = "aws-kms" → re.hasCrypto = true)
    (e1 : re.clusterHealthy = true) (e2 : re.dryRun = false)
    (e3 : re.distributed = false)
    (e4 : re.stages.mkdirOk = true) (e5 : re.stages.acquireOk = true)
    (e6 : re.stages.integrityOk = true) (e7 : re.stages.encryptCompletes = true)
    (e8 : re.stages.encOutNonEmpty = true)
    (e9 : re.stages.validateResult = some true)
    (e10 : re.stages.uploadOk = true) (e11 : re.stages.s3HeadExists = true)
    (e12 : re.stages.downloadChecksumMatch = some true)
    (hbad : re.localFiles.any (fun f => f.old && !f.delOk) = true) :
    (∀ files : List CleanFile,
      (caSweep files).1 = (files.filter (fun f => f.old && f.delOk)).map CleanFile.name)
    ∧ (ca_main rc).exitCode = 0
    ∧ (etcd_main re).exitCode = 1 := by
  refine ⟨caSweep_deletes_filter, ?_, ?_⟩
  · have hba : ∃ ev, backup_ca rc.method false rc.stages = ⟨true, true, ev, false, false⟩ := by
      by_cases hm : (rc.method == "aws-kms" || rc.method == "symmetric") = true
      · refine ⟨[.archive, .encrypt, .validate, .upload, .uploadSha, .headCheck,
          .downloadVerify, .updateLatest, .tagObject], ?_⟩
        simp [backup_ca, caUploadPhase, f3, f4, f5, f6, f7, f8, f9, hm]
      · simp only [Bool.not_eq_true] at hm
        refine ⟨[.archive, .upload, .uploadSha, .headCheck, .downloadVerify,
          .updateLatest, .tagObject], ?_⟩
        simp [backup_ca, caUploadPhase, f3, f7, f8, f9, hm]
    obtain ⟨ev, hba⟩ := hba
    simp [ca_main, method_gate rc.method rc.hasCrypto f0, f1, f2, hba]
  · have hcs : ∃ ev, create_snapshot true re.method false re.stages
        = ⟨true, true, ev, true, false⟩ := by
      by_cases hm : (re.method == "aws-kms" || re.method == "symmetric") = true
      · refine ⟨[.snapshot, .encrypt, .validate, .upload, .uploadSha, .headCheck,
          .downloadVerify, .updateLatest, .tagObject, .localCopy], ?_⟩
        simp [create_snapshot, etcdUploadPhase, e4, e5, e6, e7, e8, e9, e10, e11, e12, hm]
      · simp only [Bool.not_eq_true] at hm
        refine ⟨[.snapshot, .upload, .uploadSha, .headCheck, .downloadVerify,
          .updateLatest, .tagObject, .localCopy], ?_⟩
        simp [create_snapshot, etcdUploadPhase, e4, e5, e6, e10, e11, e12, hm]
    obtain ⟨ev, hcs⟩ := hcs
    have hraise : (cleanup_old_backups_etcd re.localFiles).2 = true := by
      rw [etcd_sweep_raises]
      exact hbad
    simp [etcd_main, method_gate re.method re.hasCrypto e0, e1, e2, e3, hcs, hraise]

/-- Witness for C5: a CA run and an etcd run each sweeping two old files
where the first deletion fails; the CA run exits 0, the etcd run exits 1. -/
theorem retention_sweep_isolation_witness :
    (caSweep caRetRun.localFiles).1 = ["b"]
    ∧ (ca_main caRetRun).exitCode = 0
    ∧ (etcd_main retBadRun).exitCode = 1 := by
  have h := retention_sweep_isolation caRetRun retBadRun
    (fun _ => rfl) rfl rfl rfl rfl rfl rfl rfl rfl rfl
    (fun _ => rfl) rfl rfl rfl rfl rfl rfl rfl rfl rfl rfl rfl rfl
    (by decide)
  exact ⟨by decide, h.2.1, h.2.2⟩

/-- Counterexample to C5 as stated: with an old file whose deletion fails,
the etcd sweep stops (the deletable second file is not deleted) and the run's
exit code flips from 0 to 1 even though the backup itself succeeded. -/
theorem retention_counterexample :
    (etcd_main retBadRun).exitCode = 1
    ∧ (etcd_main retBadRun).sweepDeleted = []
    ∧ (etcd_main retGoodRun).exitCode = 0
    ∧ (etcd_main retGoodRun).sweepDeleted = ["a", "b"] := by
  refine ⟨?_, ?_, ?_, ?_⟩ <;> decide

/-- Claim C10 (amended): when the recent-backup listing command completes —
with any exit status — check_recent_backup returns exactly whether the
stripped stdout is non-empty (so a failed listing with empty output proceeds
as if no recent backup existed, and the run behaves as in non-distributed
mode); but a listing that raises (such as a command timeout) propagates out
of check_recent_backup and aborts the run with exit code 1. -/
theorem recent_check_listing_behavior (ec : Nat) (out : List Char) (re : EtcdRun)
    (hc : re.method = "aws-kms" → re.hasCrypto = true)
    (hh : re.clusterHealthy = true)
    (hd : re.distributed = true) (hi : re.independent = false)
    (hl : re.listing = CmdOutcome.timeout) :
    check_recent_backup (CmdOutcome.completed ec out)
      = ListingResult.value (!(pyStrip out).isEmpty)
    ∧ check_recent_backup CmdOutcome.timeout = ListingResult.raised
    ∧ (etcd_main re).exitCode = 1
    ∧ (∀ r2 : EtcdRun, r2.listing = CmdOutcome.completed ec out →
        (pyStrip out).isEmpty = true →
        etcd_main r2 = etcd_main ⟨r2.method, r2.hasCrypto, r2.onlineOnly, r2.dryRun,
          false, r2.independent, r2.clusterHealthy, r2.listing, r2.stages,
          r2.localFiles⟩) := by
  refine ⟨rfl, rfl, ?_, ?_⟩
  · simp [etcd_main, method_gate re.method re.hasCrypto hc, hh, hd, hi, hl,
      check_recent_backup]
  · intro r2 h1 h2
    cases hdi : (r2.distributed && !r2.independent) <;>
      simp [etcd_main, h1, h2, hdi, check_recent_backup]

/-- Witness for C10: a timed-out listing aborts the run with exit 1. -/
theorem recent_check_listing_behavior_witness :
    check_recent_backup CmdOutcome.timeout = ListingResult.raised
    ∧ (etcd_main listRunTimeout).exitCode = 1 := by
  have h := recent_check_listing_behavior 1 [] listRunTimeout
    (fun _ => rfl) rfl rfl rfl rfl
  exact ⟨h.2.1, h.2.2.1⟩

/-- Counterexample to C10 as stated: a listing that fails by timing out does
not make check_recent_backup return false — it aborts the whole run with exit
code 1 — whereas a listing that merely fails with a non-zero exit code and
empty output lets the backup proceed. -/
theorem recent_check_timeout_counterexample :
    (etcd_main listRunTimeout).exitCode = 1
    ∧ (etcd_main listRunTimeout).events = [Ev.ping ("failure")]
    ∧ (etcd_main listRunOkEmpty).exitCode = 0
    ∧ Ev.snapshot ∈ (etcd_main listRunOkEmpty).events := by
  refine ⟨?_, ?_, ?_, ?_⟩ <;> decide

/-- Claim C8 (amended): the expected checksum is resolved in the order
explicit value, explicit sidecar file, auto-discovered sidecar next to the
input; when no source at all is available the verification is skipped with a
warning and the restore still succeeds; but an explicitly named sidecar file
that is missing or unreadable is an immediate failure (exit 1); and whenever
a checksum was resolved and the decrypted output's checksum mismatches it,
the result is failure (exit 1). -/
theorem decrypt_checksum_resolution :
    (∀ v fa auto, resolve_expected true (some v) fa auto
      = .resolved (some (pyStrip (pyLower v))) true)
    ∧ (∀ s t auto, firstToken (pyStrip s) = some t →
        resolve_expected true none (some (.contents s)) auto
          = .resolved (some (pyLower t)) true)
    ∧ (∀ s t, firstToken (pyStrip s) = some t →
        resolve_expected true none none (.contents s)
          = .resolved (some (pyLower t)) true)
    ∧ resolve_expected true none none .absent = .resolved none false
    ∧ (∀ r : DecryptRun, r.verifyFlag = true → r.shaValue = none →
        r.shaFileArg = none → r.autoSidecar = .absent → r.method = "none" →
        r.decryptOk = true → r.outputNonEmpty = true → decrypt_file_ca r = 0)
    ∧ (∀ r : DecryptRun, r.verifyFlag = true → r.shaValue = none →
        (r.shaFileArg = some .absent ∨ r.shaFileArg = some .unreadable) →
        decrypt_file_ca r = 1)
    ∧ (∀ (r : DecryptRun) (v : List Char), r.verifyFlag = true →
        r.shaValue = some v →
        (r.method = "aws-kms" ∧ r.hasCrypto = true ∨ r.method = "symmetric"
          ∨ r.method = "none") →
        r.decryptOk = true → r.outputNonEmpty = true →
        r.actualChecksum ≠ pyStrip (pyLower v) → decrypt_file_ca r = 1) := by
  refine ⟨fun v fa auto => rfl, ?_, ?_, rfl, ?_, ?_, ?_⟩
  · intro s t auto ht
    simp [resolve_expected, ht]
  · intro s t ht
    simp [resolve_expected, ht]
  · intro r h1 h2 h3 h4 h5 h6 h7
    simp [decrypt_file_ca, resolve_expected, h1, h2, h3, h4, h5, h6, h7]
  · intro r h1 h2 h3
    rcases h3 with h3 | h3 <;> simp [decrypt_file_ca, resolve_expected, h1, h2, h3]
  · intro r v h1 h2 hm h4 h5 hne
    have hb : (r.actualChecksum == pyStrip (pyLower v)) = false := by
      simpa using hne
    rcases hm with ⟨hm, hcr⟩ | hm | hm
    · simp [decrypt_file_ca, resolve_expected, h1, h2, h4, h5, hm, hb, hcr]
    · simp [decrypt_file_ca, resolve_expected, h1, h2, h4, h5, hm, hb]
    · simp [decrypt_file_ca, resolve_expected, h1, h2, h4, h5, hm, hb]

/-- Witness for C8: with no checksum source the restore exits 0 (verification
skipped); with a resolved explicit value that mismatches it exits 1. -/
theorem decrypt_checksum_resolution_witness :
    decrypt_file_ca noSourceRun = 0 ∧ decrypt_file_ca mismatchDecryptRun = 1 := by
  have h := decrypt_checksum_resolution
  refine ⟨h.2.2.2.2.1 noSourceRun rfl rfl rfl rfl rfl rfl rfl, ?_⟩
  exact h.2.2.2.2.2.2 mismatchDecryptRun ("AB".toList) rfl rfl
    (Or.inr (Or.inr rfl)) rfl rfl (by decide)

/-- Counterexample to C8 as stated: when the explicitly named sidecar file
does not exist, no checksum resolves, yet the run is treated as a failure
(exit 1, before any decryption) instead of skipping verification. -/
theorem decrypt_missing_sidecar_counterexample :
    resolve_expected true none (some .absent) .absent = .fatal
    ∧ decrypt_file_ca missingSidecarRun = 1 := by
  exact ⟨rfl, rfl⟩

theorem append_nl_split : ∀ (a b x y : List Char), nlChar ∉ a → nlChar ∉ b →
    a ++ nlChar :: x = b ++ nlChar :: y → a = b ∧ x = y
  | [], [], _, _, _, _, h => by simpa using h
  | [], _ :: _, _, _, _, hb, h => by
    exfalso
    simp only [List.nil_append, List.cons_append] at h
    injection h with h1 _
    exact hb (by rw [h1]; exact List.mem_cons_self _ _)
  | _ :: _, [], _, _, ha, _, h => by
    exfalso
    simp only [List.cons_append, List.nil_append] at h
    injection h with h1 _
    exact ha (by rw [← h1]; exact List.mem_cons_self _ _)
  | c :: as, d :: bs, x, y, ha, hb, h => by
    simp only [List.cons_append] at h
    injection h with h1 h2
    have ha2 : nlChar ∉ as := fun hm => ha (List.mem_cons_of_mem _ hm)
    have hb2 : nlChar ∉ bs := fun hm => hb (List.mem_cons_of_mem _ hm)
    obtain ⟨hab, hxy⟩ := append_nl_split as bs x y ha2 hb2 h2
    exact ⟨by rw [h1, hab], hxy⟩

theorem pyJoinNl_inj : ∀ (l1 l2 : List (List Char)), l1.length = l2.length →
    (∀ s ∈ l1, nlChar ∉ s) → (∀ s ∈ l2, nlChar ∉ s) →
    pyJoinNl l1 = pyJoinNl l2 → l1 = l2
  | [], [], _, _, _, _ => rfl
  | [], _ :: _, hl, _, _, _ => by simp at hl
  | _ :: _, [], hl, _, _, _ => by simp at hl
  | [a], [b], _, _, _, h => by
    rw [show pyJoinNl [a] = a from rfl, show pyJoinNl [b] = b from rfl] at h
    rw [h]
  | [_], _ :: _ :: _, hl, _, _, _ => by simp at hl
  | _ :: _ :: _, [_], hl, _, _, _ => by simp at hl
  | a :: a2 :: as, b :: b2 :: bs, hl, h1, h2, h => by
    have ha : nlChar ∉ a := h1 a (List.mem_cons_self _ _)
    have hbb : nlChar ∉ b := h2 b (List.mem_cons_self _ _)
    rw [show pyJoinNl (a :: a2 :: as) = a ++ nlChar :: pyJoinNl (a2 :: as) from rfl,
      show pyJoinNl (b :: b2 :: bs) = b ++ nlChar :: pyJoinNl (b2 :: bs) from rfl] at h
    obtain ⟨hab, hrest⟩ := append_nl_split a b _ _ ha hbb h
    have hl2 : (a2 :: as).length = (b2 :: bs).length := by simpa using hl
    have htail := pyJoinNl_inj (a2 :: as) (b2 :: bs) hl2
      (fun s hs => h1 s (List.mem_cons_of_mem _ hs))
      (fun s hs => h2 s (List.mem_cons_of_mem _ hs)) hrest
    rw [hab, htail]

theorem fileLine_nlFree (hfile : List Nat → List Char) (root : List Char)
    (e : List Char × List Nat) (hr : nlChar ∉ root) (hp : nlChar ∉ e.1)
    (hf : nlChar ∉ hfile e.2) : nlChar ∉ fileLine hfile root e := by
  intro hmem
  simp only [fileLine, List.mem_append, List.mem_cons] at hmem
  rcases hmem with h | h | h | h | h
  · exact hr h
  · exact absurd h (by decide)
  · exact hp h
  · exact absurd h (by decide)
  · exact hf h

theorem entries_of_fileLines (hfile : List Nat → List Char)
    (hfi : Function.Injective hfile) (root : List Char) :
    ∀ (se se2 : List (List Char × List Nat)),
      se.map Prod.fst = se2.map Prod.fst →
      se.map (fileLine hfile root) = se2.map (fileLine hfile root) → se = se2
  | [], [], _, _ => rfl
  | [], _ :: _, hp, _ => by simp at hp
  | _ :: _, [], hp, _ => by simp at hp
  | e :: t, e2 :: t2, hp, hl => by
    simp only [List.map_cons] at hp hl
    injection hp with hp1 hp2
    injection hl with hl1 hl2
    have hsnd : hfile e.2 = hfile e2.2 := by
      simpa [fileLine, hp1] using hl1
    have he : e = e2 := Prod.ext hp1 (hfi hsnd)
    rw [he, entries_of_fileLines hfile hfi root t t2 hp2 hl2]

theorem escPair_length (c : Char) : (escPair c).length = 2 := by
  by_cases h : c = nlChar <;> simp [escPair, h]

theorem escPair_nlFree (c : Char) : nlChar ∉ escPair c := by
  intro hmem
  by_cases h : c = nlChar
  · rw [escPair, if_pos h] at hmem
    revert hmem
    decide
  · rw [escPair, if_neg h] at hmem
    rcases List.mem_cons.mp hmem with h1 | h1
    · exact h h1.symm
    · revert h1
      decide

theorem escPair_inj (c d : Char) (h : escPair c = escPair d) : c = d := by
  by_cases hc : c = nlChar <;> by_cases hd : d = nlChar
  · rw [hc, hd]
  · rw [escPair, if_pos hc, escPair, if_neg hd] at h
    injection h with _ h2
    injection h2 with h3 _
    exact absurd h3 (by decide)
  · rw [escPair, if_neg hc, escPair, if_pos hd] at h
    injection h with _ h2
    injection h2 with h3 _
    exact absurd h3 (by decide)
  · rw [escPair, if_neg hc, escPair, if_neg hd] at h
    injection h

theorem escDigest_inj_aux : ∀ (l1 l2 : List Char),
    escDigest l1 = escDigest l2 → l1 = l2
  | [], [], _ => rfl
  | [], c :: t, h => by
    have hlen := congrArg List.length h
    simp [escDigest, escPair_length] at hlen
    exact absurd hlen (by omega)
  | c :: t, [], h => (escDigest_inj_aux [] (c :: t) h.symm).symm
  | c :: t, d :: s, h => by
    simp only [escDigest, List.flatMap_cons] at h
    obtain ⟨h1, h2⟩ := List.append_inj h (by rw [escPair_length, escPair_length])
    rw [escPair_inj c d h1, escDigest_inj_aux t s h2]

theorem escDigest_injective : Function.Injective escDigest :=
  fun a b h => escDigest_inj_aux a b h

theorem escDigest_nlFree (x : List Char) : nlChar ∉ escDigest x := by
  intro hmem
  simp only [escDigest, List.mem_flatMap] at hmem
  obtain ⟨c, _, hc⟩ := hmem
  exact escPair_nlFree c hc

theorem byteDigest_head : ∀ l : List Nat,
    byteDigest l = [] ∨ ∃ r, byteDigest l = 'x' :: r
  | [] => Or.inl rfl
  | n :: t => Or.inr ⟨List.replicate n 'a' ++ byteDigest t, by
      simp [byteDigest, byteBlock]⟩

theorem rep_append_inj : ∀ (n m : Nat) (x y : List Char),
    (x = [] ∨ ∃ r, x = 'x' :: r) → (y = [] ∨ ∃ r, y = 'x' :: r) →
    List.replicate n 'a' ++ x = List.replicate m 'a' ++ y → n = m ∧ x = y
  | 0, 0, _, _, _, _, h => ⟨rfl, by simpa using h⟩
  | 0, m + 1, x, y, hx, _, h => by
    exfalso
    simp only [List.replicate_succ, List.nil_append, List.cons_append] at h
    rcases hx with rfl | ⟨r, rfl⟩
    · simp at h
    · injection h with h1 _
      exact absurd h1 (by decide)
  | n + 1, 0, x, y, _, hy, h => by
    exfalso
    simp only [List.replicate_succ, List.nil_append, List.cons_append] at h
    rcases hy with rfl | ⟨r, rfl⟩
    · simp at h
    · injection h with h1 _
      exact absurd h1 (by decide)
  | n + 1, m + 1, x, y, hx, hy, h => by
    simp only [List.replicate_succ, List.cons_append] at h
    injection h with _ h2
    obtain ⟨hnm, hxy⟩ := rep_append_inj n m x y hx hy h2
    exact ⟨by rw [hnm], hxy⟩

theorem byteDigest_inj_aux : ∀ (l1 l2 : List Nat),
    byteDigest l1 = byteDigest l2 → l1 = l2
  | [], [], _ => rfl
  | [], _ :: _, h => by simp [byteDigest, byteBlock] at h
  | _ :: _, [], h => by simp [byteDigest, byteBlock] at h
  | n :: t, m :: s, h => by
    simp only [byteDigest, List.flatMap_cons, byteBlock, List.cons_append] at h
    injection h with _ h2
    obtain ⟨hnm, hrest⟩ := rep_append_inj n m _ _ (byteDigest_head t) (byteDigest_head s) h2
    rw [hnm, byteDigest_inj_aux t s hrest]

theorem byteDigest_injective : Function.Injective byteDigest :=
  fun a b h => byteDigest_inj_aux a b h

theorem byteDigest_nlFree (x : List Nat) : nlChar ∉ byteDigest x := by
  intro hmem
  simp only [byteDigest, List.mem_flatMap] at hmem
  obtain ⟨n, _, hc⟩ := hmem
  rcases List.mem_cons.mp hc with h1 | h1
  · exact absurd h1 (by decide)
  · exact absurd (List.eq_of_mem_replicate h1) (by decide)

/-- Claim C6 (amended): the CA tree fingerprint is a pure function of file
contents and ABSOLUTE file paths — the digest input embeds each file's full
path, so relocating the root changes the digest input even when relative
paths and bytes are unchanged; under injective digest primitives with
newline-free output, the fingerprint changes whenever any byte of any file
changes (with fixed roots and paths, the fingerprint determines the entries);
and the two subtree digests are combined via one final digest over exactly
the string secrets:f1, newline, config:f2. -/
theorem ca_checksum_absolute_paths
    (hfile : List Nat → List Char) (hstr : List Char → List Char)
    (hfi : Function.Injective hfile) (hsi : Function.Injective hstr)
    (hfn : ∀ x, nlChar ∉ hfile x) (hsn : ∀ x, nlChar ∉ hstr x)
    (sRoot cRoot : List Char) (hsr : nlChar ∉ sRoot) (hcr : nlChar ∉ cRoot)
    (se se2 ce ce2 : List (List Char × List Nat))
    (hp1 : se.map Prod.fst = se2.map Prod.fst)
    (hp2 : ce.map Prod.fst = ce2.map Prod.fst)
    (hn1 : ∀ e ∈ se, nlChar ∉ e.1) (hn2 : ∀ e ∈ se2, nlChar ∉ e.1)
    (hn3 : ∀ e ∈ ce, nlChar ∉ e.1) (hn4 : ∀ e ∈ ce2, nlChar ∉ e.1) :
    calculate_ca_checksum hfile hstr sRoot cRoot se ce
      = hstr ("secrets:".toList ++
          (calculate_directory_checksum hfile hstr sRoot se ++
            nlChar :: ("config:".toList ++ calculate_directory_checksum hfile hstr cRoot ce)))
    ∧ (calculate_ca_checksum hfile hstr sRoot cRoot se ce
        = calculate_ca_checksum hfile hstr sRoot cRoot se2 ce2 → se = se2 ∧ ce = ce2) := by
  refine ⟨rfl, ?_⟩
  intro h
  have h0 := hsi h
  have h1 := List.append_cancel_left h0
  obtain ⟨hd1, hrest⟩ := append_nl_split _ _ _ _ (hsn _) (hsn _) h1
  have hd2 := List.append_cancel_left hrest
  have hlen1 : (se.map (fileLine hfile sRoot)).length
      = (se2.map (fileLine hfile sRoot)).length := by
    have := congrArg List.length hp1
    simpa using this
  have hlines1 := pyJoinNl_inj _ _ hlen1
    (fun s hs => by
      obtain ⟨e, he, rfl⟩ := List.mem_map.mp hs
      exact fileLine_nlFree hfile sRoot e hsr (hn1 e he) (hfn e.2))
    (fun s hs => by
      obtain ⟨e, he, rfl⟩ := List.mem_map.mp hs
      exact fileLine_nlFree hfile sRoot e hsr (hn2 e he) (hfn e.2))
    (hsi hd1)
  have hlen2 : (ce.map (fileLine hfile cRoot)).length
      = (ce2.map (fileLine hfile cRoot)).length := by
    have := congrArg List.length hp2
    simpa using this
  have hlines2 := pyJoinNl_inj _ _ hlen2
    (fun s hs => by
      obtain ⟨e, he, rfl⟩ := List.mem_map.mp hs
      exact fileLine_nlFree hfile cRoot e hcr (hn3 e he) (hfn e.2))
    (fun s hs => by
      obtain ⟨e, he, rfl⟩ := List.mem_map.mp hs
      exact fileLine_nlFree hfile cRoot e hcr (hn4 e he) (hfn e.2))
    (hsi hd2)
  exact ⟨entries_of_fileLines hfile hfi sRoot se se2 hp1 hlines1,
    entries_of_fileLines hfile hfi cRoot ce ce2 hp2 hlines2⟩

/-- Witness for C6: concrete injective newline-free digest stand-ins and a
one-file tree realise the combination equation. -/
theorem ca_checksum_absolute_paths_witness :
    calculate_ca_checksum byteDigest escDigest ("/a".toList) ("/b".toList)
      [("x".toList, [1])] [("y".toList, [2])]
    = escDigest ("secrets:".toList ++
        (calculate_directory_checksum byteDigest escDigest ("/a".toList)
            [("x".toList, [1])] ++
          nlChar :: ("config:".toList ++
            calculate_directory_checksum byteDigest escDigest ("/b".toList)
              [("y".toList, [2])]))) :=
  (ca_checksum_absolute_paths byteDigest escDigest byteDigest_injective
    escDigest_injective byteDigest_nlFree escDigest_nlFree ("/a".toList)
    ("/b".toList) (by decide) (by decide) [("x".toList, [1])] [("x".toList, [1])]
    [("y".toList, [2])] [("y".toList, [2])] rfl rfl (by decide) (by decide)
    (by decide) (by decide)).1

/-- Counterexample to C6 as stated: two trees with identical relative paths
and identical file bytes but different absolute roots produce different
digest inputs, hence different fingerprints for an injective digest — here
evaluated with the identity digest stand-in. -/
theorem ca_checksum_root_counterexample :
    calculate_ca_checksum constDigest id ("/a".toList) ("/a".toList)
      [("x".toList, [1])] [("x".toList, [1])]
    ≠ calculate_ca_checksum constDigest id ("/e".toList) ("/e".toList)
      [("x".toList, [1])] [("x".toList, [1])] := by
  decide

end Backup
